import Mathlib

/-!
Verification of the Financial-portfolio-optimization repository.

The repository ships several generations of a portfolio-optimization web
application.  The files under `src/` are the frontend JavaScript layers
(dashboard state, request validation, payload construction, result
rendering); the backend optimization engine (FastAPI, `main.py`) is not part
of `src/` and, where a claim depends on it, is modelled from the
specification (each such definition carries a doc comment starting with
"Modelled from the spec:").

Numeric values entered in the form and carried in payloads are modelled as
rationals (`ℚ`); an empty/unset form field is `Option.none`.  JavaScript
truthiness on a numeric field (`a.weight ? … : null`) is modelled as
"`some w` with `w ≠ 0`".
-/

set_option maxHeartbeats 1600000

namespace PortfolioSpec

/-- A selected asset row of the dashboard, as created by `addAsset` in
`src/unnamed/part_001` (the v3 dashboard): ticker, display name, sector and
the four numeric form fields, all initially unset. -/
structure Asset where
  ticker : String
  name : String
  sector : String
  quantity : Option ℚ
  weight : Option ℚ
  minWeight : Option ℚ
  maxWeight : Option ℚ
deriving DecidableEq, Repr

/-- Function `addAsset` (part_001 lines 138-147): if some selected asset already has
the ticker, the list is unchanged (the UI alerts); otherwise a fresh row
with all numeric fields unset is pushed at the end.  `Calculation.js`
lines 103-111 implement the same duplicate check and push. -/
def addAsset (ticker name sector : String) (assets : List Asset) : List Asset :=
  if assets.any (fun a => a.ticker == ticker) then assets
  else assets ++ [⟨ticker, name, sector, none, none, none, none⟩]

/-- Function `removeAsset` (part_001 lines 149-152): keep every asset whose ticker
differs. -/
def removeAsset (ticker : String) (assets : List Asset) : List Asset :=
  assets.filter (fun a => a.ticker != ticker)

/-- Function `updateAssetField` (part_001 lines 154-157) mutates the first asset
found with the given ticker; modelled as updating the first match. -/
def updateFirst (ticker : String) (f : Asset → Asset) : List Asset → List Asset
  | [] => []
  | a :: rest =>
      if a.ticker == ticker then f a :: rest else a :: updateFirst ticker f rest

def setQty (v : Option ℚ) (a : Asset) : Asset := { a with quantity := v }

def setWt (v : Option ℚ) (a : Asset) : Asset := { a with weight := v }

def setMinWt (v : Option ℚ) (a : Asset) : Asset := { a with minWeight := v }

def setMaxWt (v : Option ℚ) (a : Asset) : Asset := { a with maxWeight := v }

/-- State `DashboardState` of part_001 (lines 26-31), restricted to the fields the
claims concern: the selected assets and the manual-weights toggle. -/
structure DashState where
  assets : List Asset
  isManualWeights : Bool
deriving DecidableEq, Repr

/-- User events the dashboard page can deliver to its state.  Field-edit
events exist only for inputs the page renders (`renderAssetList`,
part_001 lines 179-213): the per-asset weight input is rendered only when
the manual toggle is on and the knowledge level is professional, and the
min/max weight inputs only for professionals. -/
inductive Event
  | add (ticker name sector : String)
  | remove (ticker : String)
  | setQuantity (ticker : String) (v : Option ℚ)
  | setWeight (ticker : String) (v : Option ℚ)
  | setMinWeight (ticker : String) (v : Option ℚ)
  | setMaxWeight (ticker : String) (v : Option ℚ)
  | toggleManual

/-- One dashboard transition.  `isPro` is the knowledge level fixed when the
page loads (`applyKnowledgeLevel`).  Events on inputs the page does not
render leave the state unchanged. -/
def stepFn (isPro : Bool) (s : DashState) : Event → DashState
  | .add t n sec => { s with assets := addAsset t n sec s.assets }
  | .remove t => { s with assets := removeAsset t s.assets }
  | .setQuantity t v => { s with assets := updateFirst t (setQty v) s.assets }
  | .setWeight t v =>
      if s.isManualWeights && isPro then
        { s with assets := updateFirst t (setWt v) s.assets }
      else s
  | .setMinWeight t v =>
      if isPro then { s with assets := updateFirst t (setMinWt v) s.assets } else s
  | .setMaxWeight t v =>
      if isPro then { s with assets := updateFirst t (setMaxWt v) s.assets } else s
  | .toggleManual => { s with isManualWeights := !s.isManualWeights }

/-- Dashboard states reachable from the initial empty state (part_001
lines 26-31: `assets: []`, `isManualWeights: false`). -/
inductive Reachable (isPro : Bool) : DashState → Prop
  | init : Reachable isPro ⟨[], false⟩
  | step (s : DashState) (e : Event) :
      Reachable isPro s → Reachable isPro (stepFn isPro s e)

/-- Validation errors returned by `validateForm`; the constructor carries
the offending ticker where the message does. -/
inductive FormError
  | tooFewAssets
  | badQuantity (ticker : String)
  | badBudget
  | minAboveMax (ticker : String)
  | minSumExceeds100
deriving DecidableEq, Repr

/-- First per-asset quantity error (part_001 lines 224-227):
`!a.quantity || a.quantity <= 0`. -/
def firstQtyError : List Asset → Option FormError
  | [] => none
  | a :: rest =>
      match a.quantity with
      | none => some (.badQuantity a.ticker)
      | some q => if q ≤ 0 then some (.badQuantity a.ticker) else firstQtyError rest

/-- Budget check (part_001 lines 229-231): `!budget || budget < 100`;
an unparsable field is `none`, and both `0` and any value below 100 fail. -/
def budgetInvalid (b : Option ℚ) : Bool :=
  match b with
  | none => true
  | some v => v < 100

/-- The per-asset bound conflict of `validateForm` (part_001 lines
238-240): both bounds entered and the minimum exceeds the maximum. -/
def minMaxBad (a : Asset) : Bool :=
  match a.minWeight, a.maxWeight with
  | some mn, some mx => decide (mx < mn)
  | _, _ => false

/-- The professional-level constraint loop of `validateForm` (part_001
lines 234-244): walk the assets accumulating the sum of the entered
min-weights (an unset min contributes 0), returning at the first asset
whose min exceeds its max, and afterwards rejecting when the accumulated
sum exceeds 100 (percent). -/
def proLoop : List Asset → ℚ → Option FormError
  | [], totalMin => if 100 < totalMin then some .minSumExceeds100 else none
  | a :: rest, totalMin =>
      if minMaxBad a then some (.minAboveMax a.ticker)
      else proLoop rest (totalMin + a.minWeight.getD 0)

/-- Function `validateForm` (part_001 lines 218-247): fewer than two assets, a
missing/non-positive quantity, a budget below 100, and — professionals
only — the per-asset min ≤ max and the sum-of-min ≤ 100% checks. -/
def validateForm (isPro : Bool) (budget : Option ℚ) (s : DashState) : Option FormError :=
  if s.assets.length < 2 then some .tooFewAssets
  else
    match firstQtyError s.assets with
    | some e => some e
    | none =>
        if budgetInvalid budget then some .badBudget
        else if isPro then proLoop s.assets 0 else none

/-- Sum of the entered per-asset minimum weights, in percent (unset counts
as 0), matching the accumulation in `validateForm`. -/
def totalMin (assets : List Asset) : ℚ :=
  (assets.map (fun a => a.minWeight.getD 0)).sum

-- ----------------------------------------------------------------
-- Payload construction (src/portfolio_app_v3/frontend/js/api.js)
-- ----------------------------------------------------------------

/-- One entry of the payload's `assets` array: ticker plus the optional
fixed weight (a fraction). -/
structure PayloadAsset where
  ticker : String
  weight : Option ℚ
deriving DecidableEq, Repr

/-- One `allocation_limits` entry (api.js lines 96-110): min defaults to 0,
max to 1, entered percentages divided by 100. -/
structure AllocLimit where
  min : ℚ
  max : ℚ
deriving DecidableEq, Repr

/-- Request parameters assembled by `runOptimize` (part_001 lines 262-270). -/
structure Params where
  budget : ℚ
  startDate : String
  endDate : String
  optimizationModel : String
  riskFreeRate : ℚ
  maxAssets : Option Nat
  isManualWeights : Bool
deriving DecidableEq, Repr

/-- The optimization request payload built by `buildOptimizationPayload`
(api.js lines 112-126). -/
structure Payload where
  assets : List PayloadAsset
  budget : ℚ
  start_date : String
  end_date : String
  optimization_model : String
  risk_free_rate : ℚ
  max_assets : Option Nat
  allocation_limits : Option (List (String × AllocLimit))
  manual_weights : Bool
  knowledge_level : String
deriving DecidableEq, Repr

/-- The per-asset mapping of api.js lines 113-116:
`weight: isManualWeights && a.weight ? parseFloat(a.weight) / 100 : null`.
JavaScript truthiness of `a.weight` = set and nonzero. -/
def payloadAssetOf (isManual : Bool) (a : Asset) : PayloadAsset :=
  { ticker := a.ticker
    weight :=
      if isManual then
        match a.weight with
        | some w => if w = 0 then none else some (w / 100)
        | none => none
      else none }

/-- The `allocation_limits` construction (api.js lines 96-110, 123): an entry
per asset with at least one of min/max set; `hasAnyLimit` false yields
`null`. -/
def allocLimitsOf (assets : List Asset) : Option (List (String × AllocLimit)) :=
  let lims := assets.filterMap (fun a =>
    match a.minWeight, a.maxWeight with
    | none, none => none
    | mn, mx => some (a.ticker, ⟨mn.getD 0 / 100, mx.getD 100 / 100⟩))
  if lims.isEmpty then none else some lims

/-- Function `buildOptimizationPayload` (api.js lines 84-127).  Note
`risk_free_rate: parseFloat(riskFreeRate)` — the parameter is passed
through with no further division. -/
def buildOptimizationPayload (assets : List Asset) (p : Params) (level : String) : Payload :=
  { assets := assets.map (payloadAssetOf p.isManualWeights)
    budget := p.budget
    start_date := p.startDate
    end_date := p.endDate
    optimization_model := p.optimizationModel
    risk_free_rate := p.riskFreeRate
    max_assets := p.maxAssets
    allocation_limits := allocLimitsOf assets
    manual_weights := p.isManualWeights
    knowledge_level := level }

/-- Parameter assembly inside `runOptimize` (part_001 lines 262-270): the
budget field with fallback 10000, and
`riskFreeRate: parseFloat(…riskFreeRate…) / 100` — the single division by
100 on the way to the payload. -/
def mkParams (budget : Option ℚ) (startD endD model : String) (rfrInput : ℚ)
    (maxA : Option Nat) (isManual : Bool) : Params :=
  { budget := budget.getD 10000
    startDate := startD
    endDate := endD
    optimizationModel := model
    riskFreeRate := rfrInput / 100
    maxAssets := maxA
    isManualWeights := isManual }

/-- Function `runOptimize` (part_001 lines 252-281): validate first and alert-and-
return on an error (no API call, modelled as `none`); otherwise build the
payload and issue the optimization request (modelled as `some payload`). -/
def runOptimize (isPro : Bool) (budget : Option ℚ) (startD endD model : String)
    (rfrInput : ℚ) (maxA : Option Nat) (level : String) (s : DashState) : Option Payload :=
  match validateForm isPro budget s with
  | some _ => none
  | none =>
      some (buildOptimizationPayload s.assets
        (mkParams budget startD endD model rfrInput maxA s.isManualWeights) level)

-- ----------------------------------------------------------------
-- v2 app (src/portfolio_app_v2/frontend/js/dashboard.js)
-- ----------------------------------------------------------------

/-- An asset row of the v2 dashboard (`DashboardState.assets`,
dashboard.js lines 7-11): ticker, name, sector and the optional manual
weight. -/
structure V2Asset where
  ticker : String
  name : String
  sector : String
  weight : Option ℚ
deriving DecidableEq, Repr

/-- The payload built inline by the v2 `runOptimize`
(dashboard.js lines 185-195). -/
structure V2Payload where
  assets : List PayloadAsset
  start_date : String
  end_date : String
  optimization_goal : String
  risk_free_rate : ℚ
  manual_weights : Bool
deriving DecidableEq, Repr

/-- The v2 per-asset mapping (dashboard.js lines 186-189):
`weight: isManualWeights ? (a.weight ? a.weight / 100 : null) : null`. -/
def v2PayloadAsset (isManual : Bool) (a : V2Asset) : PayloadAsset :=
  { ticker := a.ticker
    weight :=
      if isManual then
        match a.weight with
        | some w => if w = 0 then none else some (w / 100)
        | none => none
      else none }

/-- The v2 `runOptimize` payload (dashboard.js lines 185-195), with
`risk_free_rate: parseFloat(…) / 100`. -/
def v2BuildPayload (assets : List V2Asset) (startD endD goal : String)
    (rfrInput : ℚ) (isManual : Bool) : V2Payload :=
  { assets := assets.map (v2PayloadAsset isManual)
    start_date := startD
    end_date := endD
    optimization_goal := goal
    risk_free_rate := rfrInput / 100
    manual_weights := isManual }

/-- Function `runOptimize` of v2 (dashboard.js lines 172-204): fewer than two
assets → alert and return without an API call. -/
def v2RunOptimize (assets : List V2Asset) (startD endD goal : String)
    (rfrInput : ℚ) (isManual : Bool) : Option V2Payload :=
  if assets.length < 2 then none
  else some (v2BuildPayload assets startD endD goal rfrInput isManual)

-- ----------------------------------------------------------------
-- portfolio-pro app (src/portfolio-pro/frontend/Calculation.js)
-- ----------------------------------------------------------------

/-- An asset of the portfolio-pro frontend (`AppState.assets`,
Calculation.js line 108). -/
structure PPAsset where
  ticker : String
  name : String
  sector : String
deriving DecidableEq, Repr

/-- One payload asset of Calculation.js line 163:
`{ ticker: a.ticker, allocation: 0 }`. -/
structure PPPayloadAsset where
  ticker : String
  allocation : ℚ
deriving DecidableEq, Repr

/-- The optimize payload of Calculation.js lines 162-168. -/
structure PPPayload where
  assets : List PPPayloadAsset
  start_date : String
  end_date : String
  optimization_goal : String
  risk_free_rate : ℚ
deriving DecidableEq, Repr

/-- The payload built by `optimize` (Calculation.js lines 162-168), with
`risk_free_rate: parseFloat(…) / 100`. -/
def ppBuildPayload (assets : List PPAsset) (startD endD goal : String)
    (rfrInput : ℚ) : PPPayload :=
  { assets := assets.map (fun a => ⟨a.ticker, 0⟩)
    start_date := startD
    end_date := endD
    optimization_goal := goal
    risk_free_rate := rfrInput / 100 }

/-- Function `optimize` (Calculation.js lines 149-180): fewer than two assets →
alert and return; otherwise POST the payload. -/
def ppOptimize (assets : List PPAsset) (startD endD goal : String)
    (rfrInput : ℚ) : Option PPPayload :=
  if assets.length < 2 then none
  else some (ppBuildPayload assets startD endD goal rfrInput)

-- ----------------------------------------------------------------
-- Engine: weight solver (modelled from the spec)
-- ----------------------------------------------------------------

/-- Per-asset weight bounds handed to the engine, as fractions in [0,1]. -/
structure Bound where
  lo : ℚ
  hi : ℚ
deriving DecidableEq, Repr

/-- Modelled from the spec: the backend Optimizer Engine (`main.py`) is not
under `src/`.  Feasibility of a constraint set, per §4.3: every per-asset
`min_weight ≤ max_weight` with nonnegative minima, the minima summing to at
most 1 and the maxima to at least 1 (so that weights summing to one exist). -/
def feasibleBounds (bs : List Bound) : Bool :=
  bs.all (fun b => decide (0 ≤ b.lo ∧ b.lo ≤ b.hi))
    && decide ((bs.map Bound.lo).sum ≤ 1)
    && decide (1 ≤ (bs.map Bound.hi).sum)

/-- Modelled from the spec: the solver's returned weight vector (§4.3, §8).
Deterministic representative of the feasible region: each weight starts at
its minimum and the remaining mass `1 - Σ min` is spread in proportion to
each asset's slack `max - min`. -/
def solveWeights (bs : List Bound) : List ℚ :=
  let sLo := (bs.map Bound.lo).sum
  let sHi := (bs.map Bound.hi).sum
  let slack := sHi - sLo
  if slack = 0 then bs.map Bound.lo
  else bs.map (fun b => b.lo + (1 - sLo) * (b.hi - b.lo) / slack)

/-- Modelled from the spec: the engine entry point rejects an infeasible
constraint set before solving (§4.3 failure conditions) and otherwise
returns the optimized weight vector. -/
def engineOptimize (bs : List Bound) : Option (List ℚ) :=
  if feasibleBounds bs then some (solveWeights bs) else none

-- ----------------------------------------------------------------
-- Engine: objective "all" fan-out and best designation
-- ----------------------------------------------------------------

/-- One optimized portfolio of the response, as consumed by the dashboard:
its objective name and its Sharpe ratio. -/
structure Portfolio where
  name : String
  sharpe : ℚ
deriving DecidableEq, Repr

/-- Modelled from the spec: the backend `objective = "all"` fan-out (§4.3)
is not under `src/`.  Each objective solve either fails (`none`, omitted
from the result set) or yields a portfolio with its Sharpe ratio. -/
def runAllObjectives (results : List (String × Option ℚ)) : List Portfolio :=
  results.filterMap (fun r => r.2.map (fun sh => ⟨r.1, sh⟩))

/-- Modelled from the spec: keep the portfolio with the higher Sharpe ratio
(the accumulator wins ties, so earlier objectives win). -/
def pickBetter (b q : Portfolio) : Portfolio :=
  if b.sharpe < q.sharpe then q else b

/-- Modelled from the spec: the designation of the best portfolio by Sharpe
ratio (§4.3). -/
def bestBySharpe : List Portfolio → Option Portfolio
  | [] => none
  | p :: ps => some (ps.foldl pickBetter p)

/-- Function `getBestPortfolio` (part_001 lines 579-583, identical in
portfolio_app_v6/frontend/js/dashboard.js lines 781-785):
`portfolios.find(p => p.name === data.best_portfolio) || portfolios[0]`. -/
def getBestPortfolio (allP : List Portfolio) (bestName : Option String) : Option Portfolio :=
  match allP with
  | [] => none
  | p0 :: _ =>
      match allP.find? (fun p => bestName == some p.name) with
      | some p => some p
      | none => some p0

-- ----------------------------------------------------------------
-- Engine: efficient frontier (modelled from the spec)
-- ----------------------------------------------------------------

def dot : List ℚ → List ℚ → ℚ
  | a :: as, b :: bs => a * b + dot as bs
  | _, _ => 0

/-- Portfolio variance `wᵗΣw` of a weight vector under covariance rows `S`. -/
def portVariance (S : List (List ℚ)) (w : List ℚ) : ℚ :=
  dot w (S.map (fun row => dot row w))

/-- Portfolio expected return `w·μ`. -/
def portReturn (μ : List ℚ) (w : List ℚ) : ℚ := dot μ w

/-- Modelled from the spec: keep the candidate of lower variance (the
accumulator wins ties, so earlier candidates win). -/
def pickMinVar (S : List (List ℚ)) (b c : List ℚ) : List ℚ :=
  if portVariance S c < portVariance S b then c else b

/-- Modelled from the spec: the candidate with minimal variance (§4.3
minimum volatility, checked against a brute-force grid per §8). -/
def argminVar (S : List (List ℚ)) : List (List ℚ) → Option (List ℚ)
  | [] => none
  | w :: ws => some (ws.foldl (pickMinVar S) w)

/-- Modelled from the spec: the minimum-volatility solve used by the
frontier generator (§4.5) — minimize `wᵗΣw` over the candidate weight
vectors meeting `w·μ ≥ target`; `none` when the target is infeasible. -/
def minVolSolve (μ : List ℚ) (S : List (List ℚ)) (cands : List (List ℚ))
    (t : ℚ) : Option (List ℚ) :=
  argminVar S (cands.filter (fun w => decide (t ≤ portReturn μ w)))

/-- Modelled from the spec: the Efficient Frontier Generator (§4.5), not
under `src/` (the frontend `showFrontier` is a stub).  Sweep the targets,
solve minimum volatility at each, and omit infeasible points; each emitted
pair carries the target return and the achieved variance `wᵗΣw` (the
achieved volatility is its square root). -/
def efficientFrontier (μ : List ℚ) (S : List (List ℚ)) (cands : List (List ℚ))
    (targets : List ℚ) : List (ℚ × ℚ) :=
  targets.filterMap (fun t =>
    (minVolSolve μ S cands t).map (fun w => (t, portVariance S w)))

-- ----------------------------------------------------------------
-- Lemmas: dashboard state invariants
-- ----------------------------------------------------------------

lemma mem_updateFirst {t : String} {f : Asset → Asset} {a : Asset} :
    ∀ {l : List Asset}, a ∈ updateFirst t f l → a ∈ l ∨ ∃ b ∈ l, a = f b := by
  intro l
  induction l with
  | nil => simp [updateFirst]
  | cons x xs ih =>
      simp only [updateFirst]
      split
      · intro h
        rcases List.mem_cons.mp h with h | h
        · exact Or.inr ⟨x, List.mem_cons_self x xs, h⟩
        · exact Or.inl (List.mem_cons_of_mem _ h)
      · intro h
        rcases List.mem_cons.mp h with h | h
        · exact Or.inl (h ▸ List.mem_cons_self x xs)
        · rcases ih h with h | ⟨b, hb, he⟩
          · exact Or.inl (List.mem_cons_of_mem _ h)
          · exact Or.inr ⟨b, List.mem_cons_of_mem _ hb, he⟩

lemma map_ticker_updateFirst {t : String} {f : Asset → Asset}
    (hf : ∀ a, (f a).ticker = a.ticker) :
    ∀ l : List Asset, (updateFirst t f l).map Asset.ticker = l.map Asset.ticker := by
  intro l
  induction l with
  | nil => rfl
  | cons x xs ih =>
      simp only [updateFirst]
      split
      · simp [hf]
      · simp [ih]

/-- In a beginner session the min/max weight inputs are never rendered, so
no reachable state carries a min or max constraint. -/
lemma reachable_no_constraints {isPro : Bool} {s : DashState}
    (h : Reachable isPro s) (hnp : isPro = false) :
    ∀ a ∈ s.assets, a.minWeight = none ∧ a.maxWeight = none := by
  subst hnp
  induction h with
  | init => intro a ha; simp at ha
  | step s e hr ih =>
      intro a ha
      cases e with
      | add t n sec =>
          simp only [stepFn, addAsset] at ha
          split at ha
          · exact ih a ha
          · rcases List.mem_append.mp ha with h1 | h1
            · exact ih a h1
            · simp at h1; subst h1; exact ⟨rfl, rfl⟩
      | remove t =>
          simp only [stepFn, removeAsset] at ha
          exact ih a (List.mem_of_mem_filter ha)
      | setQuantity t v =>
          simp only [stepFn] at ha
          rcases mem_updateFirst ha with h1 | ⟨b, hb, he⟩
          · exact ih a h1
          · subst he; simpa [setQty] using ih b hb
      | setWeight t v =>
          simp only [stepFn, Bool.and_false] at ha
          exact ih a ha
      | setMinWeight t v =>
          simp only [stepFn] at ha
          exact ih a ha
      | setMaxWeight t v =>
          simp only [stepFn] at ha
          exact ih a ha
      | toggleManual =>
          simp only [stepFn] at ha
          exact ih a ha

/-- Every reachable selected-asset list has pairwise distinct tickers. -/
lemma reachable_nodup {isPro : Bool} {s : DashState} (h : Reachable isPro s) :
    (s.assets.map Asset.ticker).Nodup := by
  induction h with
  | init => simp
  | step s e hr ih =>
      cases e with
      | add t n sec =>
          simp only [stepFn, addAsset]
          split
          · exact ih
          · rename_i hany
            rw [List.map_append]
            refine List.Nodup.append ih (by simp) ?_
            intro x hx hx2
            simp only [List.map_cons, List.map_nil, List.mem_singleton] at hx2
            subst hx2
            rcases List.mem_map.mp hx with ⟨a, ha, heq⟩
            exact hany (List.any_eq_true.mpr ⟨a, ha, by simp [heq]⟩)
      | remove t =>
          simp only [stepFn, removeAsset]
          exact List.Nodup.sublist ((List.filter_sublist s.assets).map Asset.ticker) ih
      | setQuantity t v =>
          simp only [stepFn]
          rw [map_ticker_updateFirst (t := t) (f := setQty v) (fun a => rfl)]
          exact ih
      | setWeight t v =>
          simp only [stepFn]
          split
          · rw [map_ticker_updateFirst (t := t) (f := setWt v) (fun a => rfl)]
            exact ih
          · exact ih
      | setMinWeight t v =>
          simp only [stepFn]
          split
          · rw [map_ticker_updateFirst (t := t) (f := setMinWt v) (fun a => rfl)]
            exact ih
          · exact ih
      | setMaxWeight t v =>
          simp only [stepFn]
          split
          · rw [map_ticker_updateFirst (t := t) (f := setMaxWt v) (fun a => rfl)]
            exact ih
          · exact ih
      | toggleManual => exact ih

-- ----------------------------------------------------------------
-- Lemmas: validateForm
-- ----------------------------------------------------------------

lemma totalMin_cons (a : Asset) (rest : List Asset) :
    totalMin (a :: rest) = a.minWeight.getD 0 + totalMin rest := by
  simp [totalMin]

/-- The professional constraint loop rejects whenever the accumulated
min-weight sum ends above 100. -/
lemma proLoop_ne_none_of_totalMin :
    ∀ (l : List Asset) (acc : ℚ), 100 < acc + totalMin l → proLoop l acc ≠ none := by
  intro l
  induction l with
  | nil =>
      intro acc h
      simp only [totalMin, List.map_nil, List.sum_nil, add_zero] at h
      simp [proLoop, h]
  | cons a rest ih =>
      intro acc h
      rw [totalMin_cons] at h
      simp only [proLoop]
      split
      · simp
      · exact ih (acc + a.minWeight.getD 0) (by linarith)

/-- If the professional constraint loop accepts, every asset with both
bounds set has min ≤ max. -/
lemma proLoop_none_minmax :
    ∀ (l : List Asset) (acc : ℚ), proLoop l acc = none →
      ∀ a ∈ l, ∀ mn mx, a.minWeight = some mn → a.maxWeight = some mx → mn ≤ mx := by
  intro l
  induction l with
  | nil => intro acc _ a ha; simp at ha
  | cons x rest ih =>
      intro acc h a ha mn mx hmn hmx
      simp only [proLoop] at h
      split at h
      · exact absurd h (by simp)
      · rename_i hbad
        rcases List.mem_cons.mp ha with rfl | ha2
        · unfold minMaxBad at hbad
          rw [hmn, hmx] at hbad
          exact le_of_not_lt (by simpa using hbad)
        · exact ih _ h a ha2 mn mx hmn hmx

/-- Decomposition of an accepting run of `validateForm`. -/
lemma validateForm_eq_none {isPro : Bool} {budget : Option ℚ} {s : DashState}
    (h : validateForm isPro budget s = none) :
    ¬ s.assets.length < 2 ∧ firstQtyError s.assets = none ∧
      budgetInvalid budget = false ∧ (isPro = true → proLoop s.assets 0 = none) := by
  by_cases h1 : s.assets.length < 2
  · simp [validateForm, h1] at h
  · cases hq : firstQtyError s.assets with
    | some e => simp [validateForm, h1, hq] at h
    | none =>
        by_cases hb : budgetInvalid budget
        · simp [validateForm, h1, hq, hb] at h
        · cases hp : isPro with
          | true =>
              refine ⟨h1, rfl, by simpa using hb, fun _ => ?_⟩
              simpa [validateForm, h1, hq, hb, hp] using h
          | false => exact ⟨h1, rfl, by simpa using hb, by simp⟩

/-- A rejected form never reaches the API: `runOptimize` returns without a
call. -/
lemma runOptimize_eq_none_of_validate {isPro : Bool} {budget : Option ℚ}
    {startD endD model : String} {rfrInput : ℚ} {maxA : Option Nat} {level : String}
    {s : DashState} (h : validateForm isPro budget s ≠ none) :
    runOptimize isPro budget startD endD model rfrInput maxA level s = none := by
  unfold runOptimize
  cases hv : validateForm isPro budget s with
  | none => exact absurd hv h
  | some e => rfl

-- ----------------------------------------------------------------
-- Claim theorems: validation (C2, C3, C8) and state (C10)
-- ----------------------------------------------------------------

/-- C2: in every reachable dashboard session whose entered per-asset
minimum weights sum to more than 100% (fractions summing to more than 1,
e.g. 1.2), validation rejects the request and `runOptimize` returns
without issuing any optimization API call — no solver is ever invoked. -/
theorem C2_infeasible_min_sum_rejected
    (isPro : Bool) (budget : Option ℚ) (startD endD model : String)
    (rfrInput : ℚ) (maxA : Option Nat) (level : String) (s : DashState)
    (hr : Reachable isPro s) (hsum : 100 < totalMin s.assets) :
    validateForm isPro budget s ≠ none ∧
      runOptimize isPro budget startD endD model rfrInput maxA level s = none := by
  have hv : validateForm isPro budget s ≠ none := by
    intro hnone
    obtain ⟨h1, hq, hb, hp⟩ := validateForm_eq_none hnone
    cases hpro : isPro with
    | true => exact proLoop_ne_none_of_totalMin s.assets 0 (by linarith) (hp hpro)
    | false =>
        have hz : totalMin s.assets = 0 := by
          unfold totalMin
          apply List.sum_eq_zero
          intro x hx
          rcases List.mem_map.mp hx with ⟨a, ha, rfl⟩
          rw [(reachable_no_constraints hr hpro a ha).1]
          rfl
        rw [hz] at hsum
        norm_num at hsum
  exact ⟨hv, runOptimize_eq_none_of_validate hv⟩

/-- Witness for C2: a professional session that selects two assets and
enters minimum weights of 70% and 60% (sum 130% > 100%) is rejected. -/
theorem C2_witness :
    validateForm true (some 1000)
        (stepFn true (stepFn true (stepFn true (stepFn true ⟨[], false⟩
          (.add "AAA" "Apple" "Tech")) (.add "BBB" "Beta" "Tech"))
          (.setMinWeight "AAA" (some 70))) (.setMinWeight "BBB" (some 60))) ≠ none ∧
      runOptimize true (some 1000) "2021-01-01" "2024-01-01" "max_sharpe" 2 none
        "professional"
        (stepFn true (stepFn true (stepFn true (stepFn true ⟨[], false⟩
          (.add "AAA" "Apple" "Tech")) (.add "BBB" "Beta" "Tech"))
          (.setMinWeight "AAA" (some 70))) (.setMinWeight "BBB" (some 60))) = none :=
  C2_infeasible_min_sum_rejected true (some 1000) "2021-01-01" "2024-01-01"
    "max_sharpe" 2 none "professional" _
    (Reachable.step _ _ (Reachable.step _ _ (Reachable.step _ _
      (Reachable.step _ _ Reachable.init))))
    (by
      simp only [stepFn, addAsset, updateFirst, setMinWt, totalMin, List.any_cons,
        List.any_nil, String.reduceBEq, String.reduceEq, Bool.or_false, if_false,
        if_true, List.map_cons, List.map_nil, List.sum_cons, List.sum_nil,
        Option.getD_some, Option.getD_none]
      norm_num)

/-- C3: a request with fewer than 2 assets is rejected by validation before
any computation — `validateForm` reports the error and `runOptimize` makes
no API call; the portfolio-pro `optimize` likewise returns without a call. -/
theorem C3_fewer_than_two_assets_rejected :
    (∀ (isPro : Bool) (budget : Option ℚ) (startD endD model : String)
        (rfrInput : ℚ) (maxA : Option Nat) (level : String) (s : DashState),
        s.assets.length < 2 →
        validateForm isPro budget s = some .tooFewAssets ∧
          runOptimize isPro budget startD endD model rfrInput maxA level s = none) ∧
    (∀ (assets : List PPAsset) (startD endD goal : String) (rfrInput : ℚ),
        assets.length < 2 → ppOptimize assets startD endD goal rfrInput = none) := by
  constructor
  · intro isPro budget startD endD model rfrInput maxA level s h
    have hv : validateForm isPro budget s = some .tooFewAssets := by
      unfold validateForm
      rw [if_pos h]
    exact ⟨hv, by simp [runOptimize, hv]⟩
  · intro assets startD endD goal rfrInput h
    unfold ppOptimize
    rw [if_pos h]

/-- Witness for C3: the empty selection (0 assets) is rejected in both the
v3 dashboard and the portfolio-pro frontend. -/
theorem C3_witness :
    (validateForm false none ⟨[], false⟩ = some .tooFewAssets ∧
      runOptimize false none "2021-01-01" "2024-01-01" "max_sharpe" 2 none "beginner"
        ⟨[], false⟩ = none) ∧
    ppOptimize [] "2021-01-01" "2024-01-01" "max_sharpe" 2 = none :=
  ⟨C3_fewer_than_two_assets_rejected.1 false none "2021-01-01" "2024-01-01"
      "max_sharpe" 2 none "beginner" ⟨[], false⟩ (by simp),
    C3_fewer_than_two_assets_rejected.2 [] "2021-01-01" "2024-01-01" "max_sharpe" 2
      (by simp)⟩

/-- C8: in every reachable session, a request that passes validation (and so
reaches the solver) has `min_weight ≤ max_weight` for every asset, and any
request in which some asset's minimum exceeds its maximum triggers a
rejection with no API call. -/
theorem C8_min_le_max_before_solver
    (isPro : Bool) (budget : Option ℚ) (startD endD model : String)
    (rfrInput : ℚ) (maxA : Option Nat) (level : String) (s : DashState)
    (hr : Reachable isPro s) :
    (validateForm isPro budget s = none →
        ∀ a ∈ s.assets, ∀ mn mx, a.minWeight = some mn → a.maxWeight = some mx →
          mn ≤ mx) ∧
    ((∃ a ∈ s.assets, ∃ mn mx, a.minWeight = some mn ∧ a.maxWeight = some mx ∧
          mx < mn) →
        runOptimize isPro budget startD endD model rfrInput maxA level s = none) := by
  have key : validateForm isPro budget s = none →
      ∀ a ∈ s.assets, ∀ mn mx, a.minWeight = some mn → a.maxWeight = some mx →
        mn ≤ mx := by
    intro hnone a ha mn mx hmn hmx
    obtain ⟨h1, hq, hb, hp⟩ := validateForm_eq_none hnone
    cases hpro : isPro with
    | true => exact proLoop_none_minmax s.assets 0 (hp hpro) a ha mn mx hmn hmx
    | false =>
        have hig := (reachable_no_constraints hr hpro a ha).1
        rw [hig] at hmn
        cases hmn
  refine ⟨key, ?_⟩
  rintro ⟨a, ha, mn, mx, hmn, hmx, hlt⟩
  apply runOptimize_eq_none_of_validate
  intro hnone
  exact absurd hlt (not_lt.mpr (key hnone a ha mn mx hmn hmx))

/-- Witness for C8: a professional session entering min 50% and max 30% on
one asset. -/
theorem C8_witness :
    (validateForm true (some 1000)
        (stepFn true (stepFn true (stepFn true (stepFn true ⟨[], false⟩
          (.add "AAA" "Apple" "Tech")) (.add "BBB" "Beta" "Tech"))
          (.setMinWeight "AAA" (some 50))) (.setMaxWeight "AAA" (some 30))) = none →
        ∀ a ∈ (stepFn true (stepFn true (stepFn true (stepFn true ⟨[], false⟩
          (.add "AAA" "Apple" "Tech")) (.add "BBB" "Beta" "Tech"))
          (.setMinWeight "AAA" (some 50))) (.setMaxWeight "AAA" (some 30))).assets,
          ∀ mn mx, a.minWeight = some mn → a.maxWeight = some mx → mn ≤ mx) ∧
    ((∃ a ∈ (stepFn true (stepFn true (stepFn true (stepFn true ⟨[], false⟩
          (.add "AAA" "Apple" "Tech")) (.add "BBB" "Beta" "Tech"))
          (.setMinWeight "AAA" (some 50))) (.setMaxWeight "AAA" (some 30))).assets,
          ∃ mn mx, a.minWeight = some mn ∧ a.maxWeight = some mx ∧ mx < mn) →
        runOptimize true (some 1000) "2021-01-01" "2024-01-01" "min_volatility" 2 none
          "professional"
          (stepFn true (stepFn true (stepFn true (stepFn true ⟨[], false⟩
            (.add "AAA" "Apple" "Tech")) (.add "BBB" "Beta" "Tech"))
            (.setMinWeight "AAA" (some 50))) (.setMaxWeight "AAA" (some 30))) = none) :=
  C8_min_le_max_before_solver true (some 1000) "2021-01-01" "2024-01-01"
    "min_volatility" 2 none "professional" _
    (Reachable.step _ _ (Reachable.step _ _ (Reachable.step _ _
      (Reachable.step _ _ Reachable.init))))

/-- C10: the selected-asset list never holds two entries with the same
ticker — every reachable state has pairwise distinct tickers, `addAsset`
with an already-present ticker leaves the list unchanged, and `removeAsset`
preserves uniqueness. -/
theorem C10_no_duplicate_tickers :
    (∀ (isPro : Bool) (s : DashState), Reachable isPro s →
        (s.assets.map Asset.ticker).Nodup) ∧
    (∀ (assets : List Asset) (t n sec : String),
        (∃ a ∈ assets, a.ticker = t) → addAsset t n sec assets = assets) ∧
    (∀ (assets : List Asset) (t : String), (assets.map Asset.ticker).Nodup →
        ((removeAsset t assets).map Asset.ticker).Nodup) := by
  refine ⟨fun isPro s hr => reachable_nodup hr, ?_, ?_⟩
  · rintro assets t n sec ⟨a, ha, rfl⟩
    unfold addAsset
    rw [if_pos]
    exact List.any_eq_true.mpr ⟨a, ha, by simp⟩
  · intro assets t h
    unfold removeAsset
    exact List.Nodup.sublist ((List.filter_sublist assets).map Asset.ticker) h

/-- Witness for C10: a concrete one-step session, a duplicate-ticker add
left unchanged, and a removal keeping uniqueness. -/
theorem C10_witness :
    ((stepFn true ⟨[], false⟩ (.add "AAA" "Apple" "Tech")).assets.map
        Asset.ticker).Nodup ∧
    addAsset "AAA" "Apple2" "Fin" [⟨"AAA", "Apple", "Tech", none, none, none, none⟩] =
      [⟨"AAA", "Apple", "Tech", none, none, none, none⟩] ∧
    ((removeAsset "AAA" [⟨"AAA", "Apple", "Tech", none, none, none, none⟩,
        ⟨"BBB", "Beta", "Tech", none, none, none, none⟩]).map Asset.ticker).Nodup :=
  ⟨C10_no_duplicate_tickers.1 true _ (Reachable.step _ _ Reachable.init),
    C10_no_duplicate_tickers.2.1 _ "AAA" "Apple2" "Fin"
      ⟨⟨"AAA", "Apple", "Tech", none, none, none, none⟩, by simp, rfl⟩,
    C10_no_duplicate_tickers.2.2 _ "AAA" (by simp)⟩

-- ----------------------------------------------------------------
-- Lemmas: payload asset mapping
-- ----------------------------------------------------------------

lemma payloadAssetOf_false (a : Asset) : (payloadAssetOf false a).weight = none := rfl

lemma payloadAssetOf_some {isM : Bool} {a : Asset} {v : ℚ}
    (h : (payloadAssetOf isM a).weight = some v) :
    isM = true ∧ ∃ w, a.weight = some w ∧ w ≠ 0 ∧ v = w / 100 := by
  cases isM with
  | false => rw [payloadAssetOf_false] at h; cases h
  | true =>
      cases hw : a.weight with
      | none => simp [payloadAssetOf, hw] at h
      | some w =>
          simp only [payloadAssetOf, hw, if_true] at h
          by_cases h0 : w = 0
          · rw [if_pos h0] at h; cases h
          · rw [if_neg h0] at h
            exact ⟨rfl, w, rfl, h0, by simpa using h.symm⟩

lemma payloadAssetOf_unset_or_zero {isM : Bool} {a : Asset}
    (h : a.weight = none ∨ a.weight = some 0) :
    (payloadAssetOf isM a).weight = none := by
  cases isM with
  | false => exact payloadAssetOf_false a
  | true =>
      simp only [payloadAssetOf, if_true]
      rcases h with h | h <;> simp [h]

lemma v2PayloadAsset_false (a : V2Asset) : (v2PayloadAsset false a).weight = none := rfl

lemma v2PayloadAsset_some {isM : Bool} {a : V2Asset} {v : ℚ}
    (h : (v2PayloadAsset isM a).weight = some v) :
    isM = true ∧ ∃ w, a.weight = some w ∧ w ≠ 0 ∧ v = w / 100 := by
  cases isM with
  | false => rw [v2PayloadAsset_false] at h; cases h
  | true =>
      cases hw : a.weight with
      | none => simp [v2PayloadAsset, hw] at h
      | some w =>
          simp only [v2PayloadAsset, hw, if_true] at h
          by_cases h0 : w = 0
          · rw [if_pos h0] at h; cases h
          · rw [if_neg h0] at h
            exact ⟨rfl, w, rfl, h0, by simpa using h.symm⟩

lemma v2PayloadAsset_unset_or_zero {isM : Bool} {a : V2Asset}
    (h : a.weight = none ∨ a.weight = some 0) :
    (v2PayloadAsset isM a).weight = none := by
  cases isM with
  | false => exact v2PayloadAsset_false a
  | true =>
      simp only [v2PayloadAsset, if_true]
      rcases h with h | h <;> simp [h]

-- ----------------------------------------------------------------
-- Claim theorems: payload construction (C4, C5, C9)
-- ----------------------------------------------------------------

/-- C4: the risk-free rate has one canonical unit at the engine boundary —
in every call site the entered percentage is divided by 100 exactly once
(in the v3 dashboard's `runOptimize` parameter assembly, in the v2 inline
payload, and in portfolio-pro's `optimize`), and `buildOptimizationPayload`
passes it through unchanged, so the `risk_free_rate` field is always the
annualized fraction `input / 100`; in particular input 2 yields 0.02. -/
theorem C4_risk_free_rate_divided_once :
    (∀ (assets : List Asset) (budget : Option ℚ) (startD endD model : String)
        (rfrInput : ℚ) (maxA : Option Nat) (isManual : Bool) (level : String),
        (buildOptimizationPayload assets
            (mkParams budget startD endD model rfrInput maxA isManual)
            level).risk_free_rate = rfrInput / 100) ∧
    (∀ (assets : List V2Asset) (startD endD goal : String) (rfrInput : ℚ)
        (isManual : Bool),
        (v2BuildPayload assets startD endD goal rfrInput isManual).risk_free_rate =
          rfrInput / 100) ∧
    (∀ (assets : List PPAsset) (startD endD goal : String) (rfrInput : ℚ),
        (ppBuildPayload assets startD endD goal rfrInput).risk_free_rate =
          rfrInput / 100) ∧
    (buildOptimizationPayload []
        (mkParams none "2021-01-01" "2024-01-01" "max_sharpe" 2 none false)
        "beginner").risk_free_rate = 1 / 50 := by
  refine ⟨fun _ _ _ _ _ _ _ _ _ => rfl, fun _ _ _ _ _ _ => rfl,
    fun _ _ _ _ _ => rfl, ?_⟩
  show (2 : ℚ) / 100 = 1 / 50
  norm_num

/-- C5: the payload carries a fixed per-asset weight (entered weight / 100)
only in manual mode — with `manual_weights` false every payload weight is
`null`, and a non-null payload weight implies manual mode with the value
being the entered weight divided by 100 (v3 `buildOptimizationPayload` and
the v2 inline payload alike). -/
theorem C5_fixed_weights_only_in_manual_mode :
    (∀ (assets : List Asset) (p : Params) (level : String),
        (p.isManualWeights = false →
          ∀ q ∈ (buildOptimizationPayload assets p level).assets, q.weight = none) ∧
        (∀ q ∈ (buildOptimizationPayload assets p level).assets, ∀ v,
          q.weight = some v →
          p.isManualWeights = true ∧
            ∃ a ∈ assets, q.ticker = a.ticker ∧
              ∃ w, a.weight = some w ∧ w ≠ 0 ∧ v = w / 100)) ∧
    (∀ (assets : List V2Asset) (startD endD goal : String) (rfr : ℚ)
        (isManual : Bool),
        (isManual = false →
          ∀ q ∈ (v2BuildPayload assets startD endD goal rfr isManual).assets,
            q.weight = none) ∧
        (∀ q ∈ (v2BuildPayload assets startD endD goal rfr isManual).assets, ∀ v,
          q.weight = some v →
          isManual = true ∧
            ∃ a ∈ assets, q.ticker = a.ticker ∧
              ∃ w, a.weight = some w ∧ w ≠ 0 ∧ v = w / 100)) := by
  constructor
  · intro assets p level
    constructor
    · intro hm q hq
      rcases List.mem_map.mp hq with ⟨a, ha, rfl⟩
      rw [hm]
      exact payloadAssetOf_false a
    · intro q hq v hv
      rcases List.mem_map.mp hq with ⟨a, ha, rfl⟩
      obtain ⟨hm, w, hw, h0, hv2⟩ := payloadAssetOf_some hv
      exact ⟨hm, a, ha, rfl, w, hw, h0, hv2⟩
  · intro assets startD endD goal rfr isManual
    constructor
    · intro hm q hq
      rcases List.mem_map.mp hq with ⟨a, ha, rfl⟩
      rw [hm]
      exact v2PayloadAsset_false a
    · intro q hq v hv
      rcases List.mem_map.mp hq with ⟨a, ha, rfl⟩
      obtain ⟨hm, w, hw, h0, hv2⟩ := v2PayloadAsset_some hv
      exact ⟨hm, a, ha, rfl, w, hw, h0, hv2⟩

/-- Witness for C5: with manual mode off an entered weight of 50% is sent as
`null`; with manual mode on it is sent as 50/100. -/
theorem C5_witness :
    (payloadAssetOf false ⟨"AAA", "Apple", "Tech", none, some 50, none, none⟩).weight
        = none ∧
    (true = true ∧
      ∃ a ∈ [(⟨"BBB", "Beta", "Tech", none, some 50, none, none⟩ : Asset)],
        (payloadAssetOf true
            ⟨"BBB", "Beta", "Tech", none, some 50, none, none⟩).ticker = a.ticker ∧
          ∃ w, a.weight = some w ∧ w ≠ 0 ∧ (50 : ℚ) / 100 = w / 100) :=
  ⟨(C5_fixed_weights_only_in_manual_mode.1
        [⟨"AAA", "Apple", "Tech", none, some 50, none, none⟩]
        ⟨10000, "2021-01-01", "2024-01-01", "max_sharpe", 1 / 50, none, false⟩
        "beginner").1 rfl _ (by simp [buildOptimizationPayload]),
    (C5_fixed_weights_only_in_manual_mode.1
        [⟨"BBB", "Beta", "Tech", none, some 50, none, none⟩]
        ⟨10000, "2021-01-01", "2024-01-01", "max_sharpe", 1 / 50, none, true⟩
        "professional").2 _ (by simp [buildOptimizationPayload]) (50 / 100)
      (by norm_num [payloadAssetOf])⟩

/-- C9: a zero or unset entered weight is treated as "not fixed" — it is
sent as `null` even in manual mode, and a non-null payload weight occurs
only when manual mode is on and the entered weight is nonzero (v3 and v2
payload builders alike). -/
theorem C9_zero_weight_not_fixed :
    (∀ (isM : Bool) (a : Asset),
        ((a.weight = none ∨ a.weight = some 0) →
          (payloadAssetOf isM a).weight = none) ∧
        ((payloadAssetOf isM a).weight ≠ none →
          isM = true ∧ ∃ w, a.weight = some w ∧ w ≠ 0)) ∧
    (∀ (isM : Bool) (a : V2Asset),
        ((a.weight = none ∨ a.weight = some 0) →
          (v2PayloadAsset isM a).weight = none) ∧
        ((v2PayloadAsset isM a).weight ≠ none →
          isM = true ∧ ∃ w, a.weight = some w ∧ w ≠ 0)) := by
  constructor
  · intro isM a
    refine ⟨payloadAssetOf_unset_or_zero, ?_⟩
    intro h
    cases hv : (payloadAssetOf isM a).weight with
    | none => exact absurd hv h
    | some v =>
        obtain ⟨hm, w, hw, h0, _⟩ := payloadAssetOf_some hv
        exact ⟨hm, w, hw, h0⟩
  · intro isM a
    refine ⟨v2PayloadAsset_unset_or_zero, ?_⟩
    intro h
    cases hv : (v2PayloadAsset isM a).weight with
    | none => exact absurd hv h
    | some v =>
        obtain ⟨hm, w, hw, h0, _⟩ := v2PayloadAsset_some hv
        exact ⟨hm, w, hw, h0⟩

/-- Witness for C9: in manual mode an entered weight of 0 and an unset
weight are both sent as `null`, and a nonzero entered weight of 25% gives
a non-null payload weight certificate. -/
theorem C9_witness :
    (payloadAssetOf true ⟨"AAA", "Apple", "Tech", none, some 0, none, none⟩).weight
        = none ∧
    (v2PayloadAsset true ⟨"BBB", "Beta", "Tech", none⟩).weight = none ∧
    (true = true ∧
      ∃ w, (⟨"CCC", "Gamma", "Tech", none, some 25, none, none⟩ : Asset).weight =
          some w ∧ w ≠ 0) :=
  ⟨(C9_zero_weight_not_fixed.1 true
        ⟨"AAA", "Apple", "Tech", none, some 0, none, none⟩).1 (Or.inr rfl),
    (C9_zero_weight_not_fixed.2 true ⟨"BBB", "Beta", "Tech", none⟩).1 (Or.inl rfl),
    (C9_zero_weight_not_fixed.1 true
        ⟨"CCC", "Gamma", "Tech", none, some 25, none, none⟩).2
      (by
        have hcc : (payloadAssetOf true
            ⟨"CCC", "Gamma", "Tech", none, some 25, none, none⟩).weight =
            some (25 / 100) := by norm_num [payloadAssetOf]
        rw [hcc]
        simp)⟩

-- ----------------------------------------------------------------
-- Lemmas: list sums
-- ----------------------------------------------------------------

lemma sum_map_add {α : Type} (f g : α → ℚ) :
    ∀ l : List α, (l.map (fun b => f b + g b)).sum = (l.map f).sum + (l.map g).sum := by
  intro l
  induction l with
  | nil => simp
  | cons x xs ih => simp [ih]; ring

lemma sum_map_mul_left {α : Type} (c : ℚ) (f : α → ℚ) :
    ∀ l : List α, (l.map (fun b => c * f b)).sum = c * (l.map f).sum := by
  intro l
  induction l with
  | nil => simp
  | cons x xs ih => simp [ih]; ring

lemma sum_map_sub {α : Type} (f g : α → ℚ) :
    ∀ l : List α, (l.map (fun b => f b - g b)).sum = (l.map f).sum - (l.map g).sum := by
  intro l
  induction l with
  | nil => simp
  | cons x xs ih => simp [ih]; ring

lemma forall2_map_self {α β : Type} {R : α → β → Prop} {f : α → β} :
    ∀ {l : List α}, (∀ b ∈ l, R b (f b)) → List.Forall₂ R l (l.map f) := by
  intro l
  induction l with
  | nil => intro _; simp
  | cons x xs ih =>
      intro h
      simp only [List.map_cons]
      exact List.Forall₂.cons (h x (List.mem_cons_self x xs))
        (ih fun b hb => h b (List.mem_cons_of_mem _ hb))

-- ----------------------------------------------------------------
-- Lemmas: the engine weight solver
-- ----------------------------------------------------------------

lemma feasibleBounds_spec {bs : List Bound} (h : feasibleBounds bs = true) :
    (∀ b ∈ bs, 0 ≤ b.lo ∧ b.lo ≤ b.hi) ∧
      (bs.map Bound.lo).sum ≤ 1 ∧ 1 ≤ (bs.map Bound.hi).sum := by
  unfold feasibleBounds at h
  simp only [Bool.and_eq_true, List.all_eq_true, decide_eq_true_eq] at h
  exact ⟨h.1.1, h.1.2, h.2⟩

lemma solveWeights_sum {bs : List Bound}
    (hlo : (bs.map Bound.lo).sum ≤ 1) (hhi : 1 ≤ (bs.map Bound.hi).sum) :
    (solveWeights bs).sum = 1 := by
  unfold solveWeights
  by_cases hz : (bs.map Bound.hi).sum - (bs.map Bound.lo).sum = 0
  · rw [if_pos hz]
    have : (bs.map Bound.lo).sum = 1 := le_antisymm hlo (by linarith)
    exact this
  · rw [if_neg hz]
    have hfun : ∀ b ∈ bs,
        b.lo + (1 - (bs.map Bound.lo).sum) * (b.hi - b.lo) /
            ((bs.map Bound.hi).sum - (bs.map Bound.lo).sum) =
          b.lo + ((1 - (bs.map Bound.lo).sum) /
            ((bs.map Bound.hi).sum - (bs.map Bound.lo).sum)) * (b.hi - b.lo) := by
      intro b _
      ring
    rw [List.map_congr_left hfun, sum_map_add, sum_map_mul_left, sum_map_sub]
    field_simp

lemma solveWeights_bounds {bs : List Bound}
    (hlohi : ∀ b ∈ bs, b.lo ≤ b.hi)
    (hlo : (bs.map Bound.lo).sum ≤ 1) (hhi : 1 ≤ (bs.map Bound.hi).sum) :
    List.Forall₂ (fun b x => b.lo ≤ x ∧ x ≤ b.hi) bs (solveWeights bs) := by
  unfold solveWeights
  by_cases hz : (bs.map Bound.hi).sum - (bs.map Bound.lo).sum = 0
  · rw [if_pos hz]
    exact forall2_map_self fun b hb => ⟨le_refl _, hlohi b hb⟩
  · rw [if_neg hz]
    have hslack : 0 < (bs.map Bound.hi).sum - (bs.map Bound.lo).sum := by
      have hnn : 0 ≤ (bs.map Bound.hi).sum - (bs.map Bound.lo).sum := by
        rw [← sum_map_sub]
        apply List.sum_nonneg
        intro x hx
        rcases List.mem_map.mp hx with ⟨b, hb, rfl⟩
        have := hlohi b hb
        linarith
      exact lt_of_le_of_ne hnn (Ne.symm hz)
    apply forall2_map_self
    intro b hb
    have hd : 0 ≤ b.hi - b.lo := by have := hlohi b hb; linarith
    constructor
    · have hnum : 0 ≤ (1 - (bs.map Bound.lo).sum) * (b.hi - b.lo) /
          ((bs.map Bound.hi).sum - (bs.map Bound.lo).sum) :=
        div_nonneg (mul_nonneg (by linarith) hd) (le_of_lt hslack)
      linarith
    · have hle : (1 - (bs.map Bound.lo).sum) * (b.hi - b.lo) /
          ((bs.map Bound.hi).sum - (bs.map Bound.lo).sum) ≤ b.hi - b.lo := by
        rw [div_le_iff₀ hslack]
        nlinarith [mul_le_mul_of_nonneg_right
          (show (1 - (bs.map Bound.lo).sum) ≤
            (bs.map Bound.hi).sum - (bs.map Bound.lo).sum by linarith) hd]
      linarith

-- ----------------------------------------------------------------
-- Claim theorem: C1 — weights sum to one and respect bounds
-- ----------------------------------------------------------------

/-- C1: for every valid (feasible) optimization request the engine model
returns a weight vector whose entries sum to 1 — in particular within the
1e-4 tolerance — and each weight lies within its asset's
[min_weight, max_weight] bounds. -/
theorem C1_weights_sum_one_within_bounds (bs : List Bound) (w : List ℚ)
    (h : engineOptimize bs = some w) :
    |w.sum - 1| ≤ 1 / 10000 ∧
      List.Forall₂ (fun b x => b.lo ≤ x ∧ x ≤ b.hi) bs w := by
  unfold engineOptimize at h
  split at h
  · rename_i hf
    obtain ⟨hball, hlo, hhi⟩ := feasibleBounds_spec hf
    cases h
    have hs := solveWeights_sum hlo hhi
    refine ⟨?_, solveWeights_bounds (fun b hb => (hball b hb).2) hlo hhi⟩
    rw [hs]
    norm_num
  · cases h

/-- Witness for C1: the request with bounds [0,1] and [1,1] is feasible and
solved by the weights [0, 1]. -/
theorem C1_witness :
    |([(0 : ℚ), 1].sum) - 1| ≤ 1 / 10000 ∧
      List.Forall₂ (fun (b : Bound) (x : ℚ) => b.lo ≤ x ∧ x ≤ b.hi)
        [⟨0, 1⟩, ⟨1, 1⟩] [0, 1] :=
  C1_weights_sum_one_within_bounds [⟨0, 1⟩, ⟨1, 1⟩] [0, 1]
    (by
      have hf : feasibleBounds [⟨0, 1⟩, ⟨1, 1⟩] = true := by
        norm_num [feasibleBounds]
      rw [engineOptimize, if_pos hf]
      norm_num [solveWeights])

-- ----------------------------------------------------------------
-- Lemmas: best-portfolio designation and lookup (C6)
-- ----------------------------------------------------------------

lemma foldl_pick_mem :
    ∀ (ps : List Portfolio) (p : Portfolio),
      ps.foldl pickBetter p = p ∨ ps.foldl pickBetter p ∈ ps := by
  intro ps
  induction ps with
  | nil => intro p; exact Or.inl rfl
  | cons q ps ih =>
      intro p
      simp only [List.foldl_cons]
      rcases ih (pickBetter p q) with h | h
      · by_cases hc : p.sharpe < q.sharpe
        · rw [h]
          unfold pickBetter
          rw [if_pos hc]
          exact Or.inr (List.mem_cons_self q ps)
        · rw [h]
          unfold pickBetter
          rw [if_neg hc]
          exact Or.inl rfl
      · exact Or.inr (List.mem_cons_of_mem _ h)

lemma foldl_pick_le :
    ∀ (ps : List Portfolio) (p : Portfolio),
      p.sharpe ≤ (ps.foldl pickBetter p).sharpe ∧
        ∀ r ∈ ps, r.sharpe ≤ (ps.foldl pickBetter p).sharpe := by
  intro ps
  induction ps with
  | nil => intro p; exact ⟨le_refl _, by simp⟩
  | cons q ps ih =>
      intro p
      simp only [List.foldl_cons]
      obtain ⟨h1, h2⟩ := ih (pickBetter p q)
      have hpq : p.sharpe ≤ (pickBetter p q).sharpe ∧
          q.sharpe ≤ (pickBetter p q).sharpe := by
        unfold pickBetter
        by_cases hc : p.sharpe < q.sharpe
        · rw [if_pos hc]; exact ⟨le_of_lt hc, le_refl _⟩
        · rw [if_neg hc]; exact ⟨le_refl _, le_of_not_lt hc⟩
      refine ⟨le_trans hpq.1 h1, ?_⟩
      intro r hr
      rcases List.mem_cons.mp hr with rfl | hr
      · exact le_trans hpq.2 h1
      · exact h2 r hr

lemma find?_name_unique :
    ∀ (ps : List Portfolio), (ps.map Portfolio.name).Nodup → ∀ b ∈ ps,
      ps.find? (fun p => some b.name == some p.name) = some b := by
  intro ps
  induction ps with
  | nil => intro _ b hb; simp at hb
  | cons q ps ih =>
      intro hnd b hb
      rw [List.map_cons, List.nodup_cons] at hnd
      rcases List.mem_cons.mp hb with rfl | hb2
      · exact List.find?_cons_of_pos _ (by simp)
      · have hq : b.name ≠ q.name := by
          intro he
          exact hnd.1 (he ▸ List.mem_map.mpr ⟨b, hb2, rfl⟩)
        rw [List.find?_cons_of_neg _ (by simp [hq])]
        exact ih hnd.2 b hb2

-- ----------------------------------------------------------------
-- Claim theorem: C6 — objective "all" result set and best designation
-- ----------------------------------------------------------------

/-- C6: for an `objective = "all"` request, the result set contains exactly
the objectives whose solve succeeded (failed objectives are omitted, not
fatal), the designated best is a member with the maximal Sharpe ratio, and
the frontend `getBestPortfolio` presents exactly the portfolio whose name
matches that designation. -/
theorem C6_all_objectives_and_best (results : List (String × Option ℚ)) :
    (∀ n sh, (n, some sh) ∈ results →
        (⟨n, sh⟩ : Portfolio) ∈ runAllObjectives results) ∧
    (∀ p ∈ runAllObjectives results, (p.name, some p.sharpe) ∈ results) ∧
    (∀ b, bestBySharpe (runAllObjectives results) = some b →
        b ∈ runAllObjectives results ∧
          ∀ p ∈ runAllObjectives results, p.sharpe ≤ b.sharpe) ∧
    (((runAllObjectives results).map Portfolio.name).Nodup →
      ∀ b, bestBySharpe (runAllObjectives results) = some b →
        getBestPortfolio (runAllObjectives results) (some b.name) = some b) := by
  have hmem : ∀ b, bestBySharpe (runAllObjectives results) = some b →
      b ∈ runAllObjectives results ∧
        ∀ p ∈ runAllObjectives results, p.sharpe ≤ b.sharpe := by
    intro b hbest
    cases hps : runAllObjectives results with
    | nil => rw [hps] at hbest; cases hbest
    | cons p0 rest =>
        rw [hps] at hbest
        simp only [bestBySharpe, Option.some.injEq] at hbest
        subst hbest
        constructor
        · rcases foldl_pick_mem rest p0 with h | h
          · rw [h]; exact List.mem_cons_self p0 rest
          · exact List.mem_cons_of_mem _ h
        · intro p hp
          obtain ⟨h1, h2⟩ := foldl_pick_le rest p0
          rcases List.mem_cons.mp hp with rfl | hp2
          · exact h1
          · exact h2 p hp2
  refine ⟨?_, ?_, hmem, ?_⟩
  · intro n sh h
    exact List.mem_filterMap.mpr ⟨(n, some sh), h, rfl⟩
  · intro p hp
    rcases List.mem_filterMap.mp hp with ⟨⟨n, r2⟩, hmem2, heq⟩
    cases r2 with
    | none => cases heq
    | some sh =>
        simp only [Option.map_some] at heq
        cases heq
        exact hmem2
  · intro hnd b hbest
    have hb := (hmem b hbest).1
    unfold getBestPortfolio
    cases hps : runAllObjectives results with
    | nil => rw [hps] at hb; simp at hb
    | cons p0 rest =>
        rw [hps] at hb hnd
        rw [find?_name_unique (p0 :: rest) hnd b hb]

/-- Witness for C6: of four objective solves where risk parity fails, the
three successes are returned, max-sharpe is designated best (Sharpe 6/5),
and `getBestPortfolio` presents exactly that portfolio. -/
theorem C6_witness :
    (⟨"min_cvar", 1⟩ : Portfolio) ∈ runAllObjectives
        [("max_sharpe", some (6 / 5)), ("min_volatility", some (4 / 5)),
          ("risk_parity", none), ("min_cvar", some 1)] ∧
    getBestPortfolio
        (runAllObjectives
          [("max_sharpe", some (6 / 5)), ("min_volatility", some (4 / 5)),
            ("risk_parity", none), ("min_cvar", some 1)])
        (some (Portfolio.mk "max_sharpe" (6 / 5)).name) =
      some ⟨"max_sharpe", 6 / 5⟩ :=
  ⟨(C6_all_objectives_and_best
        [("max_sharpe", some (6 / 5)), ("min_volatility", some (4 / 5)),
          ("risk_parity", none), ("min_cvar", some 1)]).1 "min_cvar" 1 (by simp),
    (C6_all_objectives_and_best
        [("max_sharpe", some (6 / 5)), ("min_volatility", some (4 / 5)),
          ("risk_parity", none), ("min_cvar", some 1)]).2.2.2
      (by simp [runAllObjectives, String.reduceEq])
      ⟨"max_sharpe", 6 / 5⟩
      (by
        simp only [runAllObjectives, List.filterMap_cons, Option.map_some,
          Option.map_none, List.filterMap_nil]
        simp only [bestBySharpe, List.foldl_cons, List.foldl_nil]
        norm_num [pickBetter])⟩

-- ----------------------------------------------------------------
-- Lemmas: minimum-volatility solve and the efficient frontier (C7)
-- ----------------------------------------------------------------

lemma foldl_minvar_mem (S : List (List ℚ)) :
    ∀ (ws : List (List ℚ)) (w : List ℚ),
      ws.foldl (pickMinVar S) w = w ∨ ws.foldl (pickMinVar S) w ∈ ws := by
  intro ws
  induction ws with
  | nil => intro w; exact Or.inl rfl
  | cons c ws ih =>
      intro w
      simp only [List.foldl_cons]
      rcases ih (pickMinVar S w c) with h | h
      · by_cases hc : portVariance S c < portVariance S w
        · rw [h]
          unfold pickMinVar
          rw [if_pos hc]
          exact Or.inr (List.mem_cons_self c ws)
        · rw [h]
          unfold pickMinVar
          rw [if_neg hc]
          exact Or.inl rfl
      · exact Or.inr (List.mem_cons_of_mem _ h)

lemma foldl_minvar_le (S : List (List ℚ)) :
    ∀ (ws : List (List ℚ)) (w : List ℚ),
      portVariance S (ws.foldl (pickMinVar S) w) ≤ portVariance S w ∧
        ∀ c ∈ ws, portVariance S (ws.foldl (pickMinVar S) w) ≤ portVariance S c := by
  intro ws
  induction ws with
  | nil => intro w; exact ⟨le_refl _, by simp⟩
  | cons c ws ih =>
      intro w
      simp only [List.foldl_cons]
      obtain ⟨h1, h2⟩ := ih (pickMinVar S w c)
      have hwc : portVariance S (pickMinVar S w c) ≤ portVariance S w ∧
          portVariance S (pickMinVar S w c) ≤ portVariance S c := by
        unfold pickMinVar
        by_cases hc : portVariance S c < portVariance S w
        · rw [if_pos hc]; exact ⟨le_of_lt hc, le_refl _⟩
        · rw [if_neg hc]; exact ⟨le_refl _, le_of_not_lt hc⟩
      refine ⟨le_trans h1 hwc.1, ?_⟩
      intro d hd
      rcases List.mem_cons.mp hd with rfl | hd2
      · exact le_trans h1 hwc.2
      · exact h2 d hd2

lemma argminVar_mem {S : List (List ℚ)} {l : List (List ℚ)} {w : List ℚ}
    (h : argminVar S l = some w) : w ∈ l := by
  cases l with
  | nil => cases h
  | cons x xs =>
      simp only [argminVar, Option.some.injEq] at h
      subst h
      rcases foldl_minvar_mem S xs x with h | h
      · rw [h]; exact List.mem_cons_self x xs
      · exact List.mem_cons_of_mem _ h

lemma argminVar_min {S : List (List ℚ)} {l : List (List ℚ)} {w : List ℚ}
    (h : argminVar S l = some w) :
    ∀ c ∈ l, portVariance S w ≤ portVariance S c := by
  cases l with
  | nil => cases h
  | cons x xs =>
      simp only [argminVar, Option.some.injEq] at h
      subst h
      intro c hc
      obtain ⟨h1, h2⟩ := foldl_minvar_le S xs x
      rcases List.mem_cons.mp hc with rfl | hc2
      · exact h1
      · exact h2 c hc2

/-- A lower target has a weakly larger feasible set, so its solve succeeds
whenever the higher target's does, at no greater variance. -/
lemma minVolSolve_mono {μ : List ℚ} {S : List (List ℚ)} {cands : List (List ℚ)}
    {t1 t2 : ℚ} (h12 : t1 ≤ t2) {w2 : List ℚ}
    (h2 : minVolSolve μ S cands t2 = some w2) :
    ∃ w1, minVolSolve μ S cands t1 = some w1 ∧
      portVariance S w1 ≤ portVariance S w2 := by
  have hw2 := argminVar_mem h2
  have hw2f : w2 ∈ cands.filter (fun w => decide (t1 ≤ portReturn μ w)) := by
    rcases List.mem_filter.mp hw2 with ⟨hc, hret⟩
    simp only [decide_eq_true_eq] at hret
    exact List.mem_filter.mpr ⟨hc, by simp; linarith⟩
  unfold minVolSolve
  cases h1 : argminVar S (cands.filter (fun w => decide (t1 ≤ portReturn μ w))) with
  | none =>
      exfalso
      cases hl : cands.filter (fun w => decide (t1 ≤ portReturn μ w)) with
      | nil => rw [hl] at hw2f; simp at hw2f
      | cons x xs => rw [hl] at h1; simp [argminVar] at h1
  | some w1 => exact ⟨w1, rfl, argminVar_min h1 w2 hw2f⟩

-- ----------------------------------------------------------------
-- Claim theorem: C7 — efficient frontier monotonicity
-- ----------------------------------------------------------------

/-- C7: for targets swept in increasing order the efficient frontier is an
ordered sequence of (target_return, achieved_variance) pairs whose achieved
risk — the variance, and therefore the volatility (its square root) — is
non-decreasing as the target return increases, and every emitted point is
realized by an actual feasible candidate (infeasible targets are omitted,
never zero-filled). -/
theorem C7_frontier_monotone (μ : List ℚ) (S : List (List ℚ))
    (cands : List (List ℚ)) (targets : List ℚ)
    (hs : targets.Pairwise (fun t1 t2 => t1 ≤ t2)) :
    (efficientFrontier μ S cands targets).Pairwise (fun p q => p.2 ≤ q.2) ∧
    (efficientFrontier μ S cands targets).Pairwise
      (fun p q => Real.sqrt (p.2 : ℝ) ≤ Real.sqrt (q.2 : ℝ)) ∧
    (∀ pr ∈ efficientFrontier μ S cands targets,
      ∃ w ∈ cands, pr.1 ≤ portReturn μ w ∧ pr.2 = portVariance S w) := by
  have hmain : (efficientFrontier μ S cands targets).Pairwise
      (fun p q => p.2 ≤ q.2) := by
    unfold efficientFrontier
    refine List.Pairwise.filterMap _ ?_ hs
    intro t1 t2 h12 p hp q hq
    rw [Option.mem_def] at hp hq
    rcases Option.map_eq_some'.mp hp with ⟨w1, hw1, hg1⟩
    rcases Option.map_eq_some'.mp hq with ⟨w2, hw2, hg2⟩
    rcases minVolSolve_mono h12 hw2 with ⟨w1b, hw1b, hle⟩
    have hww : w1 = w1b := by
      rw [hw1] at hw1b
      exact Option.some_inj.mp hw1b
    subst hg1
    subst hg2
    simpa using hww ▸ hle
  refine ⟨hmain, hmain.imp ?_, ?_⟩
  · intro p q h
    exact Real.sqrt_le_sqrt (by exact_mod_cast h)
  · intro pr hpr
    unfold efficientFrontier at hpr
    rcases List.mem_filterMap.mp hpr with ⟨t, ht, heq⟩
    rcases Option.map_eq_some'.mp heq with ⟨w, hw, hg⟩
    subst hg
    have hwf := argminVar_mem hw
    rcases List.mem_filter.mp hwf with ⟨hwc, hret⟩
    simp only [decide_eq_true_eq] at hret
    exact ⟨w, hwc, hret, rfl⟩

/-- Witness for C7: two assets with variances 1 and 4, candidate portfolios
concentrated in either asset, targets 0 ≤ 2 ≤ 3; the frontier is computed
with non-decreasing variance (target 3 is infeasible and omitted). -/
theorem C7_witness :
    (efficientFrontier [1, 2] [[1, 0], [0, 4]] [[1, 0], [0, 1]]
        [0, 2, 3]).Pairwise (fun p q => p.2 ≤ q.2) :=
  (C7_frontier_monotone [1, 2] [[1, 0], [0, 4]] [[1, 0], [0, 1]] [0, 2, 3]
      (by norm_num [List.pairwise_cons])).1

end PortfolioSpec
